import Mathlib

/-!
Shallow embedding of the Chaum-Pedersen ZKP gRPC repository
(`src/chaum_pedersen/crypto.rs`, `src/chaum_pedersen/mod.rs`, `src/server.rs`).

Big unsigned integers (`BigUint`) are modelled as `Nat`.  Randomness is
modelled explicitly: every random draw taken from `OsRng` is read off an
entropy stream `σ : Nat → Nat` at a position `pos` that the embedding
threads through the computation, and `rng.gen_biguint_range(&lo, &hi)`
(uniform in `[lo, hi)`) is modelled as `lo + r % (hi - lo)` for the raw
draw `r` — exactly the set of values the library call can return.
Unbounded `loop`s are given explicit fuel and return `Option`.
-/

namespace ChaumPedersen

/-- Fuel-driven core of `modPow`; the fuel is an upper bound on the
number of halvings of the exponent, so `fuel = e` always suffices. -/
def modPowAux : Nat → Nat → Nat → Nat → Nat
  | 0, _, _, m => 1 % m
  | fuel + 1, b, e, m =>
    if e = 0 then 1 % m
    else
      let h := modPowAux fuel b (e / 2) m
      if e % 2 = 0 then h * h % m
      else h * h % m * (b % m) % m

/-- `BigUint::modpow`: binary modular exponentiation, `b ^ e mod m`. -/
def modPow (b e m : Nat) : Nat := modPowAux e b e m

/-- Fuel-driven core of `decompose`; the fuel bounds the number of
halvings, so `fuel = m` suffices. -/
def decomposeAux : Nat → Nat → Nat × Nat
  | 0, m => (m, 0)
  | fuel + 1, m =>
    if m % 2 = 0 ∧ m ≠ 0 then
      ((decomposeAux fuel (m / 2)).1, (decomposeAux fuel (m / 2)).2 + 1)
    else (m, 0)

/-- The `while d.is_even` loop of `is_probably_prime`: write `m = d * 2^r`
with `d` odd (for `m > 0`). -/
def decompose (m : Nat) : Nat × Nat := decomposeAux m m

/-- One pass of the squaring loop `for _ in 0..r-1 { x = x^2 mod n; ... }`
looking for `x = n - 1`. -/
def mrSquares (n : Nat) : Nat → Nat → Bool
  | _, 0 => false
  | x, k + 1 =>
    let x2 := modPow x 2 n
    if x2 = n - 1 then true else mrSquares n x2 k

/-- The body of one Miller-Rabin witness round for witness `a`,
where `n - 1 = d * 2^r`. -/
def mrWitnessPasses (n d r a : Nat) : Bool :=
  let x := modPow a d n
  if x = 1 ∨ x = n - 1 then true else mrSquares n x (r - 1)

/-- The `'witness_loop` of `is_probably_prime`: run `rounds` rounds, each
drawing a witness `a ∈ [2, n-2]` from the stream; returns the verdict and
the new stream position.  Returns `false` at the first failing witness. -/
def mrRounds (n d r : Nat) (σ : Nat → Nat) : Nat → Nat → Bool × Nat
  | pos, 0 => (true, pos)
  | pos, rounds + 1 =>
    let a := 2 + σ pos % (n - 3)
    if mrWitnessPasses n d r a then mrRounds n d r σ (pos + 1) rounds
    else (false, pos + 1)

/-- `is_probably_prime(n, rounds)` from `src/chaum_pedersen/crypto.rs`:
Miller-Rabin with explicit entropy stream. -/
def is_probably_prime (n rounds : Nat) (σ : Nat → Nat) (pos : Nat) : Bool × Nat :=
  if n < 2 then (false, pos)
  else if n = 2 ∨ n = 3 then (true, pos)
  else if n % 2 = 0 then (false, pos)
  else
    mrRounds n (decompose (n - 1)).1 (decompose (n - 1)).2 σ pos rounds

/-- No possible witness `a ∈ [2, n-2]` passes the Miller-Rabin round for
`n`: every witness exposes `n` as composite. -/
def noWitnessPasses (n : Nat) : Bool :=
  (List.range (n - 3)).all fun j =>
    !mrWitnessPasses n (decompose (n - 1)).1 (decompose (n - 1)).2 (2 + j)

/-- Trial division by every candidate in `[2, b]`. -/
def noDivisorUpTo (n : Nat) : Nat → Bool
  | 0 => true
  | 1 => true
  | m + 2 => (n % (m + 2) != 0) && noDivisorUpTo n (m + 1)

/-- `generate_safe_prime_pair(bits)`: repeatedly draw an odd candidate `p`
of `bits - 1` bits (`gen_biguint(bits - 1)` is uniform below
`2 ^ (bits - 1)`), test it, form `q = 2p + 1`, test that, and return
`(p, q)` on success.  `fuel` bounds the unbounded `loop`; the result also
carries the new stream position. -/
def generate_safe_prime_pair (bits : Nat) (σ : Nat → Nat) :
    Nat → Nat → Option ((Nat × Nat) × Nat)
  | _, 0 => none
  | pos, fuel + 1 =>
    let c0 := σ pos % 2 ^ (bits - 1)
    let p := if c0 % 2 = 0 then c0 + 1 else c0
    let t1 := is_probably_prime p 40 σ (pos + 1)
    if t1.1 then
      let q := p * 2 + 1
      let t2 := is_probably_prime q 40 σ t1.2
      if t2.1 then some ((p, q), t2.2)
      else generate_safe_prime_pair bits σ t2.2 fuel
    else generate_safe_prime_pair bits σ t1.2 fuel

/-- `find_generator(p, q)`: repeatedly draw `g ∈ [2, q-2]`
(`gen_biguint_range(&2, &(q-1))`) until `g^p mod q ≠ 1` and
`g^2 mod q ≠ 1`. -/
def find_generator (p q : Nat) (σ : Nat → Nat) :
    Nat → Nat → Option (Nat × Nat)
  | _, 0 => none
  | pos, fuel + 1 =>
    let g := 2 + σ pos % (q - 1 - 2)
    let gp := modPow g p q
    let g2 := modPow g 2 q
    if ¬gp = 1 ∧ ¬g2 = 1 then some (g, pos + 1)
    else find_generator p q σ (pos + 1) fuel

/-- `generate_params(bits)`: compose the safe-prime search and the
generator search, returning `(p, q, g)` and the new stream position. -/
def generate_params (bits : Nat) (σ : Nat → Nat) (pos fuel : Nat) :
    Option ((Nat × Nat × Nat) × Nat) :=
  match generate_safe_prime_pair bits σ pos fuel with
  | none => none
  | some ((p, q), pos1) =>
    match find_generator p q σ pos1 fuel with
    | none => none
    | some (g, pos2) => some ((p, q, g), pos2)

/-- `generate_random_element(q)`: `gen_biguint_range(&1, &(q - 1))`,
uniform in `[1, q-2]`, for a raw draw `r`. -/
def generate_random_element (q r : Nat) : Nat := 1 + r % (q - 1 - 1)

/-- `generate_secrets(q)`: two independent draws in `[1, q-2]`. -/
def generate_secrets (q r1 r2 : Nat) : Nat × Nat :=
  (1 + r1 % (q - 1 - 1), 1 + r2 % (q - 1 - 1))

/-- `generate_prover_secret(q)`: one draw in `[1, q-2]`. -/
def generate_prover_secret (q r : Nat) : Nat := 1 + r % (q - 1 - 1)

/-! ### Byte encodings (`num_bigint`)

`BigUint::to_bytes_be` returns the minimal big-endian unsigned encoding,
except that zero encodes as the single byte `0x00`;
`BigUint::from_bytes_be` interprets bytes as a big-endian unsigned
integer. -/

def toBytesBEAux : Nat → Nat → List Nat
  | 0, _ => []
  | fuel + 1, n => if n = 0 then [] else toBytesBEAux fuel (n / 256) ++ [n % 256]

/-- `BigUint::to_bytes_be`. -/
def toBytesBE (n : Nat) : List Nat :=
  if n = 0 then [0] else toBytesBEAux n n

/-- `BigUint::from_bytes_be`. -/
def fromBytesBE (l : List Nat) : Nat :=
  l.foldl (fun acc b => acc * 256 + b) 0

/-! ### SHA-256 (the `sha2` crate)

The `sha2` crate implements standard SHA-256 (FIPS 180-4).  The
embedding implements it over byte lists, with 32-bit words as `Nat`
reduced mod `2^32`, plus the streaming `Sha256::new / update / finalize`
interface used by `generate_challenge`: the hasher state is the list of
bytes absorbed so far. -/

def w32 (x : Nat) : Nat := x % 4294967296

def rotr (n x : Nat) : Nat := w32 ((x >>> n) ||| (x <<< (32 - n)))

def bsig0 (x : Nat) : Nat := rotr 2 x ^^^ rotr 13 x ^^^ rotr 22 x

def bsig1 (x : Nat) : Nat := rotr 6 x ^^^ rotr 11 x ^^^ rotr 25 x

def ssig0 (x : Nat) : Nat := rotr 7 x ^^^ rotr 18 x ^^^ (x >>> 3)

def ssig1 (x : Nat) : Nat := rotr 17 x ^^^ rotr 19 x ^^^ (x >>> 10)

def shaCh (x y z : Nat) : Nat := (x &&& y) ^^^ ((4294967295 - x) &&& z)

def shaMaj (x y z : Nat) : Nat := (x &&& y) ^^^ (x &&& z) ^^^ (y &&& z)

def shaK : List Nat :=
  [1116352408, 1899447441, 3049323471, 3921009573, 961987163,
   1508970993, 2453635748, 2870763221, 3624381080, 310598401,
   607225278, 1426881987, 1925078388, 2162078206, 2614888103,
   3248222580, 3835390401, 4022224774, 264347078, 604807628,
   770255983, 1249150122, 1555081692, 1996064986, 2554220882,
   2821834349, 2952996808, 3210313671, 3336571891, 3584528711,
   113926993, 338241895, 666307205, 773529912, 1294757372,
   1396182291, 1695183700, 1986661051, 2177026350, 2456956037,
   2730485921, 2820302411, 3259730800, 3345764771, 3516065817,
   3600352804, 4094571909, 275423344, 430227734, 506948616,
   659060556, 883997877, 958139571, 1322822218, 1537002063,
   1747873779, 1955562222, 2024104815, 2227730452, 2361852424,
   2428436474, 2756734187, 3204031479, 3329325298]

def shaH0 : List Nat :=
  [1779033703, 3144134277, 1013904242, 2773480762, 1359893119,
   2600822924, 528734635, 1541459225]

def bytesToWords : List Nat → List Nat
  | b0 :: b1 :: b2 :: b3 :: rest =>
    (((b0 * 256 + b1) * 256 + b2) * 256 + b3) :: bytesToWords rest
  | _ => []

/-- Extend the 16-word block to the 64-word message schedule; `acc` is
the schedule so far, most recent word first. -/
def extSched : Nat → List Nat → List Nat
  | 0, acc => acc.reverse
  | k + 1, acc =>
    extSched k
      (w32 (ssig1 (acc.getD 1 0) + acc.getD 6 0 + ssig0 (acc.getD 14 0) +
        acc.getD 15 0) :: acc)

/-- The 64 compression rounds; consumes the round constants and the
schedule in lockstep. -/
def compressWords : List Nat → List Nat → List Nat → List Nat
  | k :: ks, w :: ws, [a, b, c, d, e, f, g, h] =>
    let t1 := w32 (h + bsig1 e + shaCh e f g + k + w)
    let t2 := w32 (bsig0 a + shaMaj a b c)
    compressWords ks ws [w32 (t1 + t2), a, b, c, w32 (d + t1), e, f, g]
  | _, _, st => st

def compressBlock (h : List Nat) (block16 : List Nat) : List Nat :=
  let w := extSched 48 block16.reverse
  let st := compressWords shaK w h
  List.zipWith (fun x y => w32 (x + y)) h st

def sha256Blocks : List Nat → List Nat → List Nat
  | h, w0 :: w1 :: w2 :: w3 :: w4 :: w5 :: w6 :: w7 :: w8 :: w9 :: w10 ::
      w11 :: w12 :: w13 :: w14 :: w15 :: rest =>
    sha256Blocks
      (compressBlock h [w0, w1, w2, w3, w4, w5, w6, w7, w8, w9, w10, w11,
        w12, w13, w14, w15]) rest
  | h, _ => h

def lenToBytes8 (n : Nat) : List Nat :=
  [(n >>> 56) % 256, (n >>> 48) % 256, (n >>> 40) % 256, (n >>> 32) % 256,
   (n >>> 24) % 256, (n >>> 16) % 256, (n >>> 8) % 256, n % 256]

/-- FIPS 180-4 padding: append `0x80`, zeros to 56 mod 64, then the
bit length as 8 big-endian bytes. -/
def padMessage (msg : List Nat) : List Nat :=
  let L := msg.length
  let padZeros := (64 + 56 - (L + 1) % 64) % 64
  msg ++ 0x80 :: List.replicate padZeros 0 ++ lenToBytes8 (8 * L)

/-- SHA-256 digest of a byte list, as 32 bytes. -/
def sha256 (msg : List Nat) : List Nat :=
  let h := sha256Blocks shaH0 (bytesToWords (padMessage msg))
  h.foldr
    (fun w acc =>
      (w >>> 24) % 256 :: (w >>> 16) % 256 :: (w >>> 8) % 256 :: w % 256 :: acc)
    []

/-- The streaming hasher state of `sha2::Sha256`: the bytes absorbed so
far. -/
structure Sha256Hasher where
  data : List Nat

def Sha256Hasher.new : Sha256Hasher := ⟨[]⟩

def Sha256Hasher.update (h : Sha256Hasher) (bytes : List Nat) : Sha256Hasher :=
  ⟨h.data ++ bytes⟩

def Sha256Hasher.finalize (h : Sha256Hasher) : List Nat := sha256 h.data

/-! ### The remaining pure functions of `src/chaum_pedersen/crypto.rs` -/

/-- `generate_commitment(g, a, b, q)`: note the exponent of `c1` is
reduced modulo `q - 1` in the source. -/
def generate_commitment (g a b q : Nat) : Nat × Nat × Nat :=
  (modPow g a q, modPow g b q, modPow g (a * b % (q - 1)) q)

/-- `generate_challenge(y1, y2, q)`: SHA-256 over the two big-endian
encodings via the streaming hasher, read back big-endian, reduced mod
`q`. -/
def generate_challenge (y1 y2 q : Nat) : Nat :=
  let hasher := Sha256Hasher.new
  let hasher := hasher.update (toBytesBE y1)
  let hasher := hasher.update (toBytesBE y2)
  let hash := hasher.finalize
  let challenge := fromBytesBE hash
  challenge % q

/-- `compute_y1y2(x, g, b1, q)`. -/
def compute_y1y2 (x g b1 q : Nat) : Nat × Nat :=
  (modPow g x q, modPow b1 x q)

/-- `compute_z(x, a, s, q)`: both the product and the sum are reduced
modulo `q - 1` in the source. -/
def compute_z (x a s q : Nat) : Nat :=
  (x + a * s % (q - 1)) % (q - 1)

/-- `verify_proof(g, b1, y1, y2, a1, c1, s, z, q)`. -/
def verify_proof (g b1 y1 y2 a1 c1 s z q : Nat) : Bool :=
  (modPow g z q == (modPow a1 s q * y1) % q) &&
  (modPow b1 z q == (modPow c1 s q * y2) % q)

/-! ### `src/chaum_pedersen/mod.rs`: data types, `Prover`, `Verifier`

Where the source draws randomness internally (`Prover::new` draws the
secrets, `generate_proof_challenge` draws the ephemeral `x`), the
embedding takes the raw draws as explicit arguments. -/

structure PublicParameters where
  p : Nat
  q : Nat
  g : Nat
deriving DecidableEq, Repr

structure Commitment where
  a1 : Nat
  b1 : Nat
  c1 : Nat
deriving DecidableEq, Repr

structure ProofChallenge where
  y1 : Nat
  y2 : Nat
deriving DecidableEq, Repr

structure ProofResponse where
  z : Nat
deriving DecidableEq, Repr

structure ZKProof where
  commitment : Commitment
  challenge : ProofChallenge
  response : ProofResponse
  challenge_hash : Nat
deriving DecidableEq, Repr

structure Prover where
  params : PublicParameters
  secret_a : Nat
  secret_b : Nat
deriving DecidableEq, Repr

structure Verifier where
  params : PublicParameters
deriving DecidableEq, Repr

def Prover.new (params : PublicParameters) (r1 r2 : Nat) : Prover :=
  let s := generate_secrets params.q r1 r2
  ⟨params, s.1, s.2⟩

/-- `Prover::generate_commitment`: note the last argument passed to the
crypto-layer function is `params.p`. -/
def Prover.generate_commitment (pr : Prover) : Commitment :=
  let t := ChaumPedersen.generate_commitment pr.params.g pr.secret_a
    pr.secret_b pr.params.p
  ⟨t.1, t.2.1, t.2.2⟩

/-- `Prover::generate_proof_challenge`: draws `x` from `[1, q-2]` (raw
draw `r`), computes `(y1, y2)` mod `params.p`, returns both. -/
def Prover.generate_proof_challenge (pr : Prover) (com : Commitment)
    (r : Nat) : ProofChallenge × Nat :=
  let x := generate_prover_secret pr.params.q r
  let t := compute_y1y2 x pr.params.g com.b1 pr.params.p
  (⟨t.1, t.2⟩, x)

/-- `Prover::generate_response`: `z` is computed with modulus argument
`params.q`. -/
def Prover.generate_response (pr : Prover) (x ch : Nat) : ProofResponse :=
  ⟨compute_z x pr.secret_a ch pr.params.q⟩

/-- `Prover::create_proof`: the honest transcript. -/
def Prover.create_proof (pr : Prover) (r : Nat) : ZKProof :=
  let commitment := pr.generate_commitment
  let cx := pr.generate_proof_challenge commitment r
  let challenge_hash := generate_challenge cx.1.y1 cx.1.y2 pr.params.q
  let response := pr.generate_response cx.2 challenge_hash
  ⟨commitment, cx.1, response, challenge_hash⟩

def Verifier.new (params : PublicParameters) : Verifier := ⟨params⟩

/-- `Verifier::verify_proof`: recompute the challenge from `(y1, y2)`
and `params.q`, reject on mismatch, then run the crypto-layer check with
modulus argument `params.p`. -/
def Verifier.verify_proof (v : Verifier) (proof : ZKProof) : Bool :=
  let expected := generate_challenge proof.challenge.y1 proof.challenge.y2
    v.params.q
  if expected ≠ proof.challenge_hash then false
  else
    ChaumPedersen.verify_proof v.params.g proof.commitment.b1
      proof.challenge.y1 proof.challenge.y2 proof.commitment.a1
      proof.commitment.c1 proof.challenge_hash proof.response.z v.params.p

end ChaumPedersen

/-! ### `src/server.rs`: the gRPC session coordinator

The session table `Arc<Mutex<HashMap<String, Session>>>` is modelled as
an association list; `HashMap::get`/`get_mut` is lookup of the first
matching key, `HashMap::insert` replaces the entry when the key is
present and appends otherwise, and the iteration-order-dependent
`sessions.keys().next()` is the key of the first entry.  Each handler
maps a request and the current table to a `tonic` result
(`Ok(response)` or `Err(status)`) paired with the table after the call. -/

namespace Server

open ChaumPedersen

structure Session where
  params : PublicParameters
  commitment : Commitment
  verifier : Verifier
  y1 : Option Nat
  y2 : Option Nat
  challenge : Option Nat
deriving DecidableEq, Repr

abbrev ServerState := List (String × Session)

inductive GrpcStatus where
  | invalidArgument (msg : String)
  | notFound (msg : String)
deriving DecidableEq, Repr

structure InitializeRequest where
  bit_size : Nat
deriving DecidableEq, Repr

structure ProtoPublicParameters where
  p : List Nat
  q : List Nat
  g : List Nat
deriving DecidableEq, Repr

structure ProtoCommitment where
  a1 : List Nat
  b1 : List Nat
  c1 : List Nat
deriving DecidableEq, Repr

structure InitializeResponse where
  params : ProtoPublicParameters
  commitment : ProtoCommitment
deriving DecidableEq, Repr

/-- The `SubmitCommitment` request.  Modelled from the spec: the `.proto`
definition is not under `src/`; per the spec interface the request
carries a session id, a commitment and the challenge values `y1`, `y2`
(and `src/client.rs` sends exactly those fields in its commitment
request).  The server handler reads only `y1` and `y2`. -/
structure ProofChallengeRequest where
  session_id : String
  commitment : ProtoCommitment
  y1 : List Nat
  y2 : List Nat
deriving DecidableEq, Repr

structure ChallengeResponse where
  challenge : List Nat
deriving DecidableEq, Repr

/-- The `SubmitResponse` request; `src/client.rs` constructs it with a
`session_id` and the response bytes `z`. -/
structure VerifyProofRequest where
  session_id : String
  z : List Nat
deriving DecidableEq, Repr

structure VerifyProofResponse where
  verified : Bool
  message : String
deriving DecidableEq, Repr

/-- `sessions.keys().next()`: some key of the table iff it is nonempty. -/
def firstKey (st : ServerState) : Option String :=
  match st with
  | [] => none
  | (k, _) :: _ => some k

/-- `sessions.get(&id)` / `get_mut(&id)`: first entry with the key. -/
def getSession (st : ServerState) (sid : String) : Option Session :=
  match st with
  | [] => none
  | (k, s) :: rest => if k = sid then some s else getSession rest sid

/-- Replace the first entry carrying `sid`. -/
def setSession (st : ServerState) (sid : String) (sess : Session) :
    ServerState :=
  match st with
  | [] => []
  | (k, s) :: rest =>
    if k = sid then (k, sess) :: rest else (k, s) :: setSession rest sid sess

/-- `sessions.insert(id, session)`: replace or append. -/
def insertSession (st : ServerState) (sid : String) (sess : Session) :
    ServerState :=
  match getSession st sid with
  | some _ => setSession st sid sess
  | none => st ++ [(sid, sess)]

/-- `initialize_protocol`: validate `bit_size ∈ [256, 4096]` before any
work; then generate parameters (entropy stream `σ` at `pos` with `fuel`
for the unbounded prime search; `none` models non-termination), create
the server-side prover and its commitment, insert a fresh session under
the drawn id `sid`, and answer with the byte encodings. -/
def init_protocol (st : ServerState) (bit_size : Nat) (σ : Nat → Nat)
    (pos fuel : Nat) (sid : String) :
    Option (Except GrpcStatus InitializeResponse × ServerState) :=
  if bit_size < 256 ∨ bit_size > 4096 then
    some (.error (.invalidArgument "Bit size must be between 256 and 4096"), st)
  else
    match generate_params bit_size σ pos fuel with
    | none => none
    | some ((p, q, g), pos1) =>
      let params : PublicParameters := ⟨p, q, g⟩
      let prover := Prover.new params (σ pos1) (σ (pos1 + 1))
      let commitment := prover.generate_commitment
      let verifier := Verifier.new params
      let session : Session := ⟨params, commitment, verifier, none, none, none⟩
      some (.ok ⟨⟨toBytesBE p, toBytesBE q, toBytesBE g⟩,
        ⟨toBytesBE commitment.a1, toBytesBE commitment.b1,
          toBytesBE commitment.c1⟩⟩, insertSession st sid session)

/-- `send_proof_challenge`: reads `y1`, `y2` from the request, takes the
FIRST key of the table (ignoring `req.session_id` and
`req.commitment`), computes the challenge from the stored `params.q`,
stores `y1`, `y2` and the challenge in that session, and returns the
challenge bytes.  `not_found` only when the table is empty. -/
def send_proof_challenge (st : ServerState) (req : ProofChallengeRequest) :
    Except GrpcStatus ChallengeResponse × ServerState :=
  let y1 := fromBytesBE req.y1
  let y2 := fromBytesBE req.y2
  match firstKey st with
  | some sid =>
    match getSession st sid with
    | some session =>
      let proper_challenge := generate_challenge y1 y2 session.params.q
      let session1 := { session with
        y1 := some y1, y2 := some y2, challenge := some proper_challenge }
      (.ok ⟨toBytesBE proper_challenge⟩, setSession st sid session1)
    | none => (.error (.notFound "Session not found"), st)
  | none => (.error (.notFound "Session not found"), st)

/-- `verify_proof` (the RPC): reads `z`, takes the FIRST key of the table
(ignoring `req.session_id`), runs the crypto-layer check against the
stored session with modulus argument `session.params.q`, and reports the
outcome.  The table is never modified. -/
def verify_proof (st : ServerState) (req : VerifyProofRequest) :
    Except GrpcStatus VerifyProofResponse × ServerState :=
  let z := fromBytesBE req.z
  match firstKey st with
  | some sid =>
    let vres :=
      match getSession st sid with
      | some session =>
        match session.y1, session.y2, session.challenge with
        | some y1, some y2, some challenge =>
          some (ChaumPedersen.verify_proof session.params.g
            session.commitment.b1 y1 y2 session.commitment.a1
            session.commitment.c1 challenge z session.params.q)
        | _, _, _ => none
      | none => none
    match vres with
    | some true => (.ok ⟨true, "Proof verified successfully"⟩, st)
    | some false => (.ok ⟨false, "Proof verification failed"⟩, st)
    | none => (.error (.invalidArgument "Invalid session state"), st)
  | none => (.error (.notFound "Session not found"), st)

end Server

/-! ### Concrete objects used in the claim-level evaluations -/

namespace ChaumPedersen

/-- The odd primes from 5 to 997. -/
def oddPrimes997 : List Nat :=
  [5, 7, 11, 13, 17, 19, 23, 29, 31, 37, 41, 43, 47, 53, 59, 61, 67, 71,
   73, 79, 83, 89, 97, 101, 103, 107, 109, 113, 127, 131, 137, 139, 149,
   151, 157, 163, 167, 173, 179, 181, 191, 193, 197, 199, 211, 223, 227,
   229, 233, 239, 241, 251, 257, 263, 269, 271, 277, 281, 283, 293, 307,
   311, 313, 317, 331, 337, 347, 349, 353, 359, 367, 373, 379, 383, 389,
   397, 401, 409, 419, 421, 431, 433, 439, 443, 449, 457, 461, 463, 467,
   479, 487, 491, 499, 503, 509, 521, 523, 541, 547, 557, 563, 569, 571,
   577, 587, 593, 599, 601, 607, 613, 617, 619, 631, 641, 643, 647, 653,
   659, 661, 673, 677, 683, 691, 701, 709, 719, 727, 733, 739, 743, 751,
   757, 761, 769, 773, 787, 797, 809, 811, 821, 823, 827, 829, 839, 853,
   857, 859, 863, 877, 881, 883, 887, 907, 911, 919, 929, 937, 941, 947,
   953, 967, 971, 977, 983, 991, 997]

/-- A concrete entropy stream: the first draw is `4` (making the prime
candidate `5`), every later draw `0`; `generate_params 256` terminates on
it with fuel `1` and returns `((5, 11, 2), 82)`. -/
def entropy0 : Nat → Nat := fun i => if i = 0 then 4 else 0

end ChaumPedersen

/-- A concrete fully-populated session: parameters `(5, 11, 2)` as
produced by `generate_params` on `entropy0`, an all-ones commitment,
challenge values and challenge hash already stored. -/
def sessA : Server.Session :=
  ⟨⟨5, 11, 2⟩, ⟨1, 1, 1⟩, ⟨⟨5, 11, 2⟩⟩, some 1, some 1, some 0⟩

/-- A concrete freshly-initialized session with commitment `(2, 3, 4)`. -/
def sessB : Server.Session :=
  ⟨⟨5, 11, 2⟩, ⟨2, 3, 4⟩, ⟨⟨5, 11, 2⟩⟩, none, none, none⟩

/-! ## Theorems

First the supporting lemmas about the embedded functions, then one
theorem per specification claim (with witnesses and counterexamples
where applicable). -/

namespace ChaumPedersen

theorem modPowAux_eq (fuel b e m : Nat) (hfe : e ≤ fuel) :
    modPowAux fuel b e m = b ^ e % m := by
  induction fuel generalizing e with
  | zero =>
    have he : e = 0 := Nat.le_zero.mp hfe
    subst he
    simp [modPowAux]
  | succ f ih =>
    by_cases he : e = 0
    · subst he; simp [modPowAux]
    · have hhalf : e / 2 ≤ f := by omega
      rw [modPowAux]
      simp only [he, if_false, ih _ hhalf]
      by_cases hpar : e % 2 = 0
      · simp only [hpar, if_true]
        rw [← Nat.mul_mod, ← pow_add]
        have h2 : e / 2 + e / 2 = e := by omega
        rw [h2]
      · simp only [hpar, if_false]
        have h1 : b ^ (e / 2) % m * (b ^ (e / 2) % m) % m
            = b ^ (e / 2) * b ^ (e / 2) % m := (Nat.mul_mod _ _ _).symm
        rw [h1, ← Nat.mul_mod, ← pow_add, ← pow_succ]
        have h2 : e / 2 + e / 2 + 1 = e := by omega
        rw [h2]

theorem modPow_eq (b e m : Nat) : modPow b e m = b ^ e % m :=
  modPowAux_eq e b e m (Nat.le_refl e)

theorem decomposeAux_spec (fuel : Nat) :
    ∀ m, m ≤ fuel →
      (decomposeAux fuel m).1 * 2 ^ (decomposeAux fuel m).2 = m ∧
      ((decomposeAux fuel m).1 % 2 = 1 ∨ m = 0) := by
  induction fuel with
  | zero =>
    intro m hm
    have : m = 0 := by omega
    subst this
    simp [decomposeAux]
  | succ f ih =>
    intro m hm
    by_cases h : m % 2 = 0 ∧ m ≠ 0
    · have hm2 : m / 2 ≤ f := by omega
      obtain ⟨h1, h2⟩ := ih (m / 2) hm2
      rw [decomposeAux, if_pos h]
      constructor
      · rw [pow_succ, ← Nat.mul_assoc, h1]
        omega
      · left
        rcases h2 with h2 | h2
        · exact h2
        · omega
    · rw [decomposeAux, if_neg h]
      constructor
      · simp
      · omega

theorem decompose_spec (m : Nat) :
    (decompose m).1 * 2 ^ (decompose m).2 = m ∧
    ((decompose m).1 % 2 = 1 ∨ m = 0) :=
  decomposeAux_spec m m (Nat.le_refl m)

/-- If repeated squaring reaches `n - 1` within `k` steps, the squaring
loop accepts. -/
theorem mrSquares_of_exists (n : Nat) :
    ∀ k x j, 1 ≤ j → j ≤ k → modPow x (2 ^ j) n = n - 1 →
      mrSquares n x k = true := by
  intro k
  induction k with
  | zero => intro x j h1 h2 _; omega
  | succ k ih =>
    intro x j h1 h2 hj
    by_cases hx2 : modPow x 2 n = n - 1
    · simp [mrSquares, hx2]
    · have hj2 : 2 ≤ j := by
        rcases Nat.lt_or_ge j 2 with h | h
        · exfalso
          have : j = 1 := by omega
          subst this
          rw [pow_one] at hj
          exact hx2 hj
        · exact h
      have h2j : 2 * 2 ^ (j - 1) = 2 ^ j := by
        rw [← pow_succ']
        congr 1
        omega
      have key : modPow (modPow x 2 n) (2 ^ (j - 1)) n = modPow x (2 ^ j) n := by
        rw [modPow_eq, modPow_eq, modPow_eq]
        calc (x ^ 2 % n) ^ 2 ^ (j - 1) % n
            = (x ^ 2) ^ 2 ^ (j - 1) % n := (Nat.pow_mod _ _ _).symm
          _ = x ^ (2 * 2 ^ (j - 1)) % n := by rw [← pow_mul]
          _ = x ^ 2 ^ j % n := by rw [h2j]
      simp only [mrSquares, hx2, if_false]
      exact ih (modPow x 2 n) (j - 1) (by omega) (by omega) (key.trans hj)

/-- In a field, a solution of `z ^ (2 ^ r) = 1` is `1` or reaches `-1`
along the squaring chain. -/
theorem pow_two_pow_eq_one_cases {F : Type} [Field F] (z : F) (r : Nat)
    (h : z ^ 2 ^ r = 1) : z = 1 ∨ ∃ i, i < r ∧ z ^ 2 ^ i = -1 := by
  induction r with
  | zero => left; simpa using h
  | succ k ih =>
    have hw : z ^ 2 ^ k * z ^ 2 ^ k = 1 := by
      rw [← pow_add]
      have : 2 ^ k + 2 ^ k = 2 ^ (k + 1) := by
        rw [pow_succ]
        omega
      rw [this]
      exact h
    have h2 : (z ^ 2 ^ k - 1) * (z ^ 2 ^ k + 1) = 0 := by linear_combination hw
    rcases mul_eq_zero.mp h2 with h3 | h3
    · rcases ih (sub_eq_zero.mp h3) with h4 | ⟨i, hi, hi2⟩
      · exact Or.inl h4
      · exact Or.inr ⟨i, Nat.lt_succ_of_lt hi, hi2⟩
    · exact Or.inr ⟨k, Nat.lt_succ_self k, eq_neg_of_add_eq_zero_left h3⟩

/-- Casting is injective on naturals below the modulus. -/
theorem castInj {n : Nat} (x y : Nat) (hx : x < n) (hy : y < n)
    (h : (x : ZMod n) = (y : ZMod n)) : x = y := by
  have hv : (x : ZMod n).val = (y : ZMod n).val := by rw [h]
  rwa [ZMod.val_cast_of_lt hx, ZMod.val_cast_of_lt hy] at hv

/-- Soundness of the Miller-Rabin witness round on primes: for an odd
prime `n ≥ 5`, every witness `a ∈ [2, n-2]` passes. -/
theorem mrWitnessPasses_of_prime (n : Nat) (hp : Nat.Prime n) (hn : 5 ≤ n)
    (hodd : n % 2 = 1) (a : Nat) (ha2 : 2 ≤ a) (han : a ≤ n - 2) :
    mrWitnessPasses n (decompose (n - 1)).1 (decompose (n - 1)).2 a = true := by
  haveI : Fact n.Prime := ⟨hp⟩
  obtain ⟨hdr, hdodd⟩ := decompose_spec (n - 1)
  set d := (decompose (n - 1)).1 with hd
  set r := (decompose (n - 1)).2 with hr
  have hdodd' : d % 2 = 1 := hdodd.resolve_right (by omega)
  have hr1 : 1 ≤ r := by
    by_contra h0
    have hr0 : r = 0 := by omega
    rw [hr0, pow_zero, Nat.mul_one] at hdr
    omega
  have hne : (a : ZMod n) ≠ 0 := by
    rw [Ne, ZMod.natCast_zmod_eq_zero_iff_dvd]
    intro hdvd
    have := Nat.le_of_dvd (by omega) hdvd
    omega
  have hferm : (a : ZMod n) ^ (n - 1) = 1 := ZMod.pow_card_sub_one_eq_one hne
  have hz : ((a : ZMod n) ^ d) ^ 2 ^ r = 1 := by
    rw [← pow_mul, hdr]
    exact hferm
  have hxlt : modPow a d n < n := by
    rw [modPow_eq]
    exact Nat.mod_lt _ (by omega)
  have hcast : ((modPow a d n : Nat) : ZMod n) = (a : ZMod n) ^ d := by
    rw [modPow_eq, ZMod.natCast_mod, Nat.cast_pow]
  have hn1cast : ((n - 1 : Nat) : ZMod n) = -1 := by
    have h1n : (1 : Nat) ≤ n := by omega
    rw [Nat.cast_sub h1n, Nat.cast_one, ZMod.natCast_self, zero_sub]
  have hkey : modPow a d n = 1 ∨ modPow a d n = n - 1 ∨
      ∃ i, 1 ≤ i ∧ i ≤ r - 1 ∧ modPow (modPow a d n) (2 ^ i) n = n - 1 := by
    rcases pow_two_pow_eq_one_cases ((a : ZMod n) ^ d) r hz with h1 | ⟨i, hir, hi⟩
    · left
      apply castInj _ _ hxlt (by omega)
      rw [hcast, h1, Nat.cast_one]
    · by_cases hi0 : i = 0
      · right; left
        apply castInj _ _ hxlt (by omega)
        rw [hcast, hn1cast]
        subst hi0
        simpa using hi
      · right; right
        refine ⟨i, by omega, by omega, ?_⟩
        apply castInj _ _ (by rw [modPow_eq]; exact Nat.mod_lt _ (by omega)) (by omega)
        rw [modPow_eq, ZMod.natCast_mod, Nat.cast_pow, hcast, hn1cast]
        exact hi
  rcases hkey with h1 | h1 | ⟨i, hi1, hi2, hi3⟩
  · simp [mrWitnessPasses, h1]
  · simp [mrWitnessPasses, h1]
  · by_cases hx1 : modPow a d n = 1 ∨ modPow a d n = n - 1
    · simp [mrWitnessPasses, hx1]
    · simp only [mrWitnessPasses, hx1, if_false]
      exact mrSquares_of_exists n (r - 1) (modPow a d n) i hi1 hi2 hi3

theorem noDivisorUpTo_spec (m : Nat) (hm : 2 ≤ m) :
    ∀ b n, noDivisorUpTo n b = true → m ≤ b → ¬m ∣ n := by
  intro b
  induction b with
  | zero => intro n _ hmb; omega
  | succ k ih =>
    intro n h hmb
    match k, h with
    | 0, h => omega
    | k' + 1, h =>
      rw [noDivisorUpTo, Bool.and_eq_true, bne_iff_ne] at h
      by_cases hmk : m = k' + 2
      · intro hdvd
        exact h.1 (by rw [← hmk]; exact Nat.dvd_iff_mod_eq_zero.mp hdvd)
      · exact ih n h.2 (by omega)

/-- Primality from trial division up to `min 31 (n-1)`, valid for
`n ≤ 997`. -/
theorem prime_of_noDivisorUpTo (n : Nat) (h2 : 2 ≤ n) (h997 : n ≤ 997)
    (h : noDivisorUpTo n (min 31 (n - 1)) = true) : Nat.Prime n := by
  rw [Nat.prime_def_le_sqrt]
  refine ⟨h2, fun m hm hms hdvd => ?_⟩
  have hmm : m * m ≤ n := Nat.le_sqrt.mp hms
  have hm31 : m ≤ 31 := by nlinarith
  have hmn : m < n := by nlinarith
  exact noDivisorUpTo_spec m hm (min 31 (n - 1)) n h
    (Nat.le_min.mpr ⟨hm31, by omega⟩) hdvd

theorem mrRounds_true (n d r : Nat) (hn : 5 ≤ n)
    (hall : ∀ a, 2 ≤ a → a ≤ n - 2 → mrWitnessPasses n d r a = true) :
    ∀ rounds σ pos, (mrRounds n d r σ pos rounds).1 = true := by
  intro rounds
  induction rounds with
  | zero => intro σ pos; simp [mrRounds]
  | succ k ih =>
    intro σ pos
    have hmod : σ pos % (n - 3) < n - 3 := Nat.mod_lt _ (by omega)
    have hw : mrWitnessPasses n d r (2 + σ pos % (n - 3)) = true :=
      hall _ (by omega) (by omega)
    simp only [mrRounds, hw, if_true]
    exact ih σ (pos + 1)

theorem mrRounds_false (n d r : Nat) (hn : 5 ≤ n)
    (hfail : ∀ a, 2 ≤ a → a ≤ n - 2 → mrWitnessPasses n d r a = false) :
    ∀ rounds σ pos, 1 ≤ rounds → (mrRounds n d r σ pos rounds).1 = false := by
  intro rounds σ pos h1
  match rounds, h1 with
  | k + 1, _ =>
    have hmod : σ pos % (n - 3) < n - 3 := Nat.mod_lt _ (by omega)
    have hw : mrWitnessPasses n d r (2 + σ pos % (n - 3)) = false :=
      hfail _ (by omega) (by omega)
    simp [mrRounds, hw]

theorem noWitnessPasses_implies (n : Nat) (h : noWitnessPasses n = true)
    (hn : 5 ≤ n) :
    ∀ a, 2 ≤ a → a ≤ n - 2 →
      mrWitnessPasses n (decompose (n - 1)).1 (decompose (n - 1)).2 a = false := by
  intro a ha2 han
  rw [noWitnessPasses, List.all_eq_true] at h
  have hj : a - 2 ∈ List.range (n - 3) := List.mem_range.mpr (by omega)
  have hh := h _ hj
  rw [Bool.not_eq_true'] at hh
  rwa [show 2 + (a - 2) = a by omega] at hh

/-- `is_probably_prime` accepts every odd prime `n ≥ 5` under every
entropy stream and round count. -/
theorem is_probably_prime_of_prime (n : Nat) (hp : Nat.Prime n) (hn : 5 ≤ n)
    (hodd : n % 2 = 1) :
    ∀ rounds σ pos, (is_probably_prime n rounds σ pos).1 = true := by
  intro rounds σ pos
  have h1 : ¬n < 2 := by omega
  have h2 : ¬(n = 2 ∨ n = 3) := by omega
  have h3 : ¬n % 2 = 0 := by omega
  rw [is_probably_prime]
  simp only [h1, h2, h3, if_false]
  exact mrRounds_true n _ _ hn
    (fun a ha han => mrWitnessPasses_of_prime n hp hn hodd a ha han) rounds σ pos

/-- `is_probably_prime` rejects an odd `n ≥ 5` on which every witness
fails, under every entropy stream, for any positive round count. -/
theorem is_probably_prime_of_noWitness (n : Nat) (h : noWitnessPasses n = true)
    (hn : 5 ≤ n) (hodd : n % 2 = 1) :
    ∀ rounds σ pos, 1 ≤ rounds → (is_probably_prime n rounds σ pos).1 = false := by
  intro rounds σ pos hr
  have h1 : ¬n < 2 := by omega
  have h2 : ¬(n = 2 ∨ n = 3) := by omega
  have h3 : ¬n % 2 = 0 := by omega
  rw [is_probably_prime]
  simp only [h1, h2, h3, if_false]
  exact mrRounds_false n _ _ hn (noWitnessPasses_implies n h hn) rounds σ pos hr

end ChaumPedersen

/-! ### Claim C3 -/

/-- C3 counterexample: the claim says `compute_z(x, a, s, q) = (x + a*s) mod q`;
at `x = 3, a = 1, s = 1, q = 5` the code returns `(3 + 1) mod 4 = 0`
while the claim demands `(3 + 1) mod 5 = 4`. -/
theorem c3_compute_z_counterexample :
    ChaumPedersen.compute_z 3 1 1 5 = 0 ∧ (3 + 1 * 1) % 5 = 4 ∧
    ChaumPedersen.compute_z 3 1 1 5 ≠ (3 + 1 * 1) % 5 := by
  refine ⟨by decide, by decide, by decide⟩

/-- C3 amended: `compute_z(x, a, s, q)` returns `(x + a*s) mod (q - 1)` —
the source reduces both the product `a*s` and the sum modulo `q - 1`,
not modulo `q`. -/
theorem c3_compute_z_amended (x a s q : Nat) :
    ChaumPedersen.compute_z x a s q = (x + a * s) % (q - 1) :=
  Nat.ModEq.add_left x (Nat.mod_modEq (a * s) (q - 1))

/-! ### Claim C10 -/

/-- C10: for `q > 2`, `generate_random_element(q)`,
`generate_prover_secret(q)` and both components of `generate_secrets(q)`
always lie in `[1, q-2]`; the endpoint `q-1` is never produced because
the sampling range `gen_biguint_range(&1, &(q-1))` excludes its upper
bound. -/
theorem c10_random_values_in_range (q r r1 r2 : Nat) (hq : 2 < q) :
    (1 ≤ ChaumPedersen.generate_random_element q r ∧
      ChaumPedersen.generate_random_element q r ≤ q - 2) ∧
    (1 ≤ ChaumPedersen.generate_prover_secret q r ∧
      ChaumPedersen.generate_prover_secret q r ≤ q - 2) ∧
    (1 ≤ (ChaumPedersen.generate_secrets q r1 r2).1 ∧
      (ChaumPedersen.generate_secrets q r1 r2).1 ≤ q - 2) ∧
    (1 ≤ (ChaumPedersen.generate_secrets q r1 r2).2 ∧
      (ChaumPedersen.generate_secrets q r1 r2).2 ≤ q - 2) := by
  have h1 : r % (q - 1 - 1) < q - 1 - 1 := Nat.mod_lt _ (by omega)
  have h2 : r1 % (q - 1 - 1) < q - 1 - 1 := Nat.mod_lt _ (by omega)
  have h3 : r2 % (q - 1 - 1) < q - 1 - 1 := Nat.mod_lt _ (by omega)
  simp only [ChaumPedersen.generate_random_element,
    ChaumPedersen.generate_prover_secret, ChaumPedersen.generate_secrets]
  omega

/-- C10 witness: the bound theorem applied at `q = 11` with raw draws
`5`, `0`, `20`. -/
theorem c10_random_values_in_range_witness :
    (1 ≤ ChaumPedersen.generate_random_element 11 5 ∧
      ChaumPedersen.generate_random_element 11 5 ≤ 11 - 2) ∧
    (1 ≤ ChaumPedersen.generate_prover_secret 11 5 ∧
      ChaumPedersen.generate_prover_secret 11 5 ≤ 11 - 2) ∧
    (1 ≤ (ChaumPedersen.generate_secrets 11 0 20).1 ∧
      (ChaumPedersen.generate_secrets 11 0 20).1 ≤ 11 - 2) ∧
    (1 ≤ (ChaumPedersen.generate_secrets 11 0 20).2 ∧
      (ChaumPedersen.generate_secrets 11 0 20).2 ≤ 11 - 2) :=
  c10_random_values_in_range 11 5 0 20 (by decide)

/-! ### Claim C7 -/

/-- C7: `generate_challenge(y1, y2, q)` equals SHA-256 of the
concatenation of the big-endian encodings of `y1` and `y2` (no
separators, padding or length prefixes), read back as a big-endian
integer and reduced mod `q`; and it is a pure function of its arguments:
equal arguments give equal results. -/
theorem c7_generate_challenge_spec (y1 y2 q : Nat) :
    ChaumPedersen.generate_challenge y1 y2 q =
      ChaumPedersen.fromBytesBE
        (ChaumPedersen.sha256
          (ChaumPedersen.toBytesBE y1 ++ ChaumPedersen.toBytesBE y2)) % q ∧
    (∀ y1' y2' q', y1 = y1' → y2 = y2' → q = q' →
      ChaumPedersen.generate_challenge y1 y2 q =
        ChaumPedersen.generate_challenge y1' y2' q') := by
  constructor
  · simp [ChaumPedersen.generate_challenge, ChaumPedersen.Sha256Hasher.new,
      ChaumPedersen.Sha256Hasher.update, ChaumPedersen.Sha256Hasher.finalize]
  · intro y1' y2' q' h1 h2 h3
    rw [h1, h2, h3]

/-- C7 witness: the specification equality and determinism at
`y1 = 2, y2 = 3, q = 11`. -/
theorem c7_generate_challenge_spec_witness :
    ChaumPedersen.generate_challenge 2 3 11 =
      ChaumPedersen.fromBytesBE
        (ChaumPedersen.sha256
          (ChaumPedersen.toBytesBE 2 ++ ChaumPedersen.toBytesBE 3)) % 11 ∧
    ChaumPedersen.generate_challenge 2 3 11 =
      ChaumPedersen.generate_challenge 2 3 11 :=
  ⟨(c7_generate_challenge_spec 2 3 11).1,
   (c7_generate_challenge_spec 2 3 11).2 2 3 11 rfl rfl rfl⟩

/-! ### Claim C1 -/

set_option maxRecDepth 40000 in
/-- C1: the honest-proof round trip FAILS on the code.  With group
parameters `(p, q, g) = (5, 11, 2)` — exactly what `generate_params 256`
returns on the concrete entropy stream `entropy0` — secrets
`a = b = 1` (drawn by `Prover.new` from raw draws `0, 0`) and ephemeral
secret `x = 4 ∈ [1, q-2]` (raw draw `3`), the honestly computed
transcript `Prover.create_proof` is REJECTED by
`Verifier.verify_proof`: the code performs group arithmetic mod
`params.p` but reduces the response `z` mod `params.q - 1`, and the two
moduli are mutually inconsistent. -/
theorem c1_honest_roundtrip_fails :
    (ChaumPedersen.generate_params 256 ChaumPedersen.entropy0 0 1).map
      Prod.fst = some (5, 11, 2) ∧
    ChaumPedersen.Prover.new ⟨5, 11, 2⟩ 0 0 = ⟨⟨5, 11, 2⟩, 1, 1⟩ ∧
    ChaumPedersen.generate_prover_secret 11 3 = 4 ∧
    (1 ≤ 4 ∧ 4 ≤ 11 - 2) ∧
    ChaumPedersen.Verifier.verify_proof ⟨⟨5, 11, 2⟩⟩
      (ChaumPedersen.Prover.create_proof
        (ChaumPedersen.Prover.new ⟨5, 11, 2⟩ 0 0) 3) = false := by
  refine ⟨by decide, by decide, by decide, by decide, by decide⟩

/-! ### Claim C2 -/

set_option maxRecDepth 40000 in
/-- C2: `generate_params` does NOT return `p = 2q + 1` with
`g^q mod p = 1`.  On the concrete entropy stream `entropy0` with
`bits = 256` it terminates and returns `(p, q, g) = (5, 11, 2)`:
the roles are swapped — `q = 2p + 1` (q is the safe prime, p the
Sophie-Germain prime) — and `g^q mod p = 2^11 mod 5 = 3 ≠ 1`; `g` is
instead checked to satisfy `g^p ≠ 1` and `g^2 ≠ 1` mod `q`. -/
theorem c2_generate_params_failing_eval :
    ChaumPedersen.generate_params 256 ChaumPedersen.entropy0 0 1 =
      some ((5, 11, 2), 82) ∧
    ¬(5 = 2 * 11 + 1) ∧ 11 = 2 * 5 + 1 ∧
    ChaumPedersen.modPow 2 11 5 ≠ 1 ∧
    ChaumPedersen.modPow 2 5 11 ≠ 1 ∧ ChaumPedersen.modPow 2 2 11 ≠ 1 := by
  refine ⟨by decide, by decide, by decide, by decide, by decide, by decide⟩

/-! ### Claim C4 -/

set_option maxRecDepth 40000 in
/-- C4: session lookup is NOT keyed by the caller-supplied sessionId.
With a table holding only session `"a"`, a `SubmitResponse` naming the
nonexistent id `"zzz"` is answered `Ok(verified = true)` instead of
not-found; and with a table holding `"a"` then `"b"`, a
`SubmitCommitment` naming `"b"` mutates session `"a"` (the first in the
table) and leaves `"b"` untouched. -/
theorem c4_lookup_ignores_session_id :
    Server.verify_proof [("a", sessA)] ⟨"zzz", []⟩ =
      (Except.ok ⟨true, "Proof verified successfully"⟩, [("a", sessA)]) ∧
    (Server.send_proof_challenge [("a", sessB), ("b", sessB)]
        ⟨"b", ⟨[], [], []⟩, [2], [3]⟩).2 =
      [("a", { sessB with
                y1 := some 2, y2 := some 3,
                challenge := some (ChaumPedersen.generate_challenge 2 3 11) }),
       ("b", sessB)] := by
  refine ⟨rfl, by decide⟩

/-! ### Claim C5 -/

set_option maxRecDepth 40000 in
/-- C5 counterexample: the commitment used by verification is NOT the
caller-submitted one.  The caller submits commitment bytes
`([9], [9], [9])` (decoding to `(9, 9, 9)`), yet after the call the
session's commitment — the one `verify_proof` reads — is still the
server-generated `(2, 3, 4)` stored at initialization. -/
theorem c5_commitment_not_caller_submitted :
    (Server.getSession
        (Server.send_proof_challenge [("a", sessB)]
          ⟨"a", ⟨[9], [9], [9]⟩, [2], [3]⟩).2 "a").map
      Server.Session.commitment = some ⟨2, 3, 4⟩ ∧
    (⟨2, 3, 4⟩ : ChaumPedersen.Commitment) ≠ ⟨9, 9, 9⟩ ∧
    ChaumPedersen.fromBytesBE [9] = 9 := by
  refine ⟨by decide, by decide, by decide⟩

/-- C5 amended: for every `SubmitCommitment` (`send_proof_challenge`)
call on a nonempty table, the server computes
`s = generate_challenge(y1, y2, q)` from the submitted challenge values,
stores `y1`, `y2` and `s` in the FIRST session of the table, and returns
`s`; the session's commitment field is left unchanged (the
server-generated commitment from initialization), and any
caller-submitted commitment is ignored. -/
theorem c5_send_proof_challenge_behavior (sid : String)
    (sess : Server.Session) (rest : Server.ServerState)
    (req : Server.ProofChallengeRequest) :
    Server.send_proof_challenge ((sid, sess) :: rest) req =
      (Except.ok ⟨ChaumPedersen.toBytesBE
          (ChaumPedersen.generate_challenge (ChaumPedersen.fromBytesBE req.y1)
            (ChaumPedersen.fromBytesBE req.y2) sess.params.q)⟩,
        (sid, { sess with
          y1 := some (ChaumPedersen.fromBytesBE req.y1),
          y2 := some (ChaumPedersen.fromBytesBE req.y2),
          challenge := some
            (ChaumPedersen.generate_challenge (ChaumPedersen.fromBytesBE req.y1)
              (ChaumPedersen.fromBytesBE req.y2) sess.params.q) }) :: rest) := by
  simp [Server.send_proof_challenge, Server.firstKey, Server.getSession,
    Server.setSession]

/-! ### Claim C6 -/

set_option maxRecDepth 40000 in
/-- C6 counterexample: a `SubmitResponse` call that returns
`verified = true` does NOT purge the session: on the single-session
table the call answers `verified = true` and the session is still
present afterwards. -/
theorem c6_verified_session_not_purged :
    Server.verify_proof [("s", sessA)] ⟨"s", []⟩ =
      (Except.ok ⟨true, "Proof verified successfully"⟩, [("s", sessA)]) ∧
    Server.getSession (Server.verify_proof [("s", sessA)] ⟨"s", []⟩).2 "s" =
      some sessA := by
  refine ⟨rfl, by decide⟩

/-- C6 amended: `SubmitResponse` (`verify_proof`) never modifies the
session table: the table after the call equals the table before it, for
verified = true, verified = false, and every error outcome alike. -/
theorem c6_verify_proof_preserves_table (st : Server.ServerState)
    (req : Server.VerifyProofRequest) :
    (Server.verify_proof st req).2 = st := by
  rcases st with _ | ⟨⟨k, s⟩, rest⟩
  · rfl
  · simp only [Server.verify_proof, Server.firstKey]
    split <;> rfl

/-! ### Claim C9 -/

/-- C9: `initialize_protocol` validates `bitSize ∈ [256, 4096]` before
any work: outside the range it returns invalid-argument with the session
table unchanged and no parameter generation performed (the result does
not depend on the entropy stream or fuel); inside the range the
validation passes — the call never returns invalid-argument (it either
diverges in the prime search, modelled as `none`, or succeeds). -/
theorem c9_init_protocol_validation :
    (∀ (st : Server.ServerState) (bs : Nat) (σ : Nat → Nat)
        (pos fuel : Nat) (sid : String), bs < 256 ∨ bs > 4096 →
      Server.init_protocol st bs σ pos fuel sid =
        some (Except.error
          (.invalidArgument "Bit size must be between 256 and 4096"), st)) ∧
    (∀ (st : Server.ServerState) (bs : Nat) (σ : Nat → Nat)
        (pos fuel : Nat) (sid : String), 256 ≤ bs → bs ≤ 4096 →
      Server.init_protocol st bs σ pos fuel sid = none ∨
      ∃ resp st1, Server.init_protocol st bs σ pos fuel sid =
        some (Except.ok resp, st1)) := by
  constructor
  · intro st bs σ pos fuel sid h
    rw [Server.init_protocol, if_pos h]
  · intro st bs σ pos fuel sid h1 h2
    rw [Server.init_protocol, if_neg (by omega)]
    cases hgp : ChaumPedersen.generate_params bs σ pos fuel with
    | none => left; rfl
    | some v =>
      obtain ⟨⟨p, q, g⟩, pos1⟩ := v
      right
      exact ⟨_, _, rfl⟩

/-- C9 witness: `bitSize = 128` is rejected with an unchanged (empty)
table; `bitSize = 256` passes validation (on `entropy0` it in fact
succeeds). -/
theorem c9_init_protocol_validation_witness :
    Server.init_protocol [] 128 ChaumPedersen.entropy0 0 1 "x" =
      some (Except.error
        (.invalidArgument "Bit size must be between 256 and 4096"), []) ∧
    (Server.init_protocol [] 256 ChaumPedersen.entropy0 0 1 "x" = none ∨
      ∃ resp st1, Server.init_protocol [] 256 ChaumPedersen.entropy0 0 1 "x" =
        some (Except.ok resp, st1)) :=
  ⟨c9_init_protocol_validation.1 [] 128 _ 0 1 "x" (by decide),
   c9_init_protocol_validation.2 [] 256 _ 0 1 "x" (by decide) (by decide)⟩

/-! ### Claim C8 -/

set_option maxRecDepth 40000 in
/-- C8: `is_probably_prime(n, rounds)` returns false for every `n < 2`,
true for `n = 2` and `n = 3`, false for every even `n > 2`; and under
EVERY possible choice of random witnesses (every entropy stream) it
returns true for each odd prime `5, 7, ..., 997` and false for the
composites `4, 6, 8, 9, 15, 21` (for any positive number of rounds). -/
theorem c8_is_probably_prime_cases :
    (∀ (n rounds : Nat) (σ : Nat → Nat) (pos : Nat), n < 2 →
      (ChaumPedersen.is_probably_prime n rounds σ pos).1 = false) ∧
    (∀ (rounds : Nat) (σ : Nat → Nat) (pos : Nat),
      (ChaumPedersen.is_probably_prime 2 rounds σ pos).1 = true ∧
      (ChaumPedersen.is_probably_prime 3 rounds σ pos).1 = true) ∧
    (∀ (n rounds : Nat) (σ : Nat → Nat) (pos : Nat), 2 < n → n % 2 = 0 →
      (ChaumPedersen.is_probably_prime n rounds σ pos).1 = false) ∧
    (∀ n, n ∈ ChaumPedersen.oddPrimes997 →
      ∀ (rounds : Nat) (σ : Nat → Nat) (pos : Nat),
        (ChaumPedersen.is_probably_prime n rounds σ pos).1 = true) ∧
    (∀ n, n ∈ [4, 6, 8, 9, 15, 21] →
      ∀ (rounds : Nat) (σ : Nat → Nat) (pos : Nat), 1 ≤ rounds →
        (ChaumPedersen.is_probably_prime n rounds σ pos).1 = false) := by
  refine ⟨?_, ?_, ?_, ?_, ?_⟩
  · intro n rounds σ pos h
    rw [ChaumPedersen.is_probably_prime, if_pos h]
  · intro rounds σ pos
    exact ⟨rfl, rfl⟩
  · intro n rounds σ pos h2 heven
    rw [ChaumPedersen.is_probably_prime, if_neg (by omega),
      if_neg (by omega), if_pos heven]
  · intro n hn rounds σ pos
    have hall : ∀ m ∈ ChaumPedersen.oddPrimes997,
        5 ≤ m ∧ m ≤ 997 ∧ m % 2 = 1 ∧
        ChaumPedersen.noDivisorUpTo m (min 31 (m - 1)) = true := by decide
    obtain ⟨h5, h997, hodd, hdiv⟩ := hall n hn
    exact ChaumPedersen.is_probably_prime_of_prime n
      (ChaumPedersen.prime_of_noDivisorUpTo n (by omega) h997 hdiv)
      h5 hodd rounds σ pos
  · intro n hn rounds σ pos hr
    fin_cases hn
    · rfl
    · rfl
    · rfl
    · exact ChaumPedersen.is_probably_prime_of_noWitness 9 (by decide)
        (by norm_num) (by norm_num) rounds σ pos hr
    · exact ChaumPedersen.is_probably_prime_of_noWitness 15 (by decide)
        (by norm_num) (by norm_num) rounds σ pos hr
    · exact ChaumPedersen.is_probably_prime_of_noWitness 21 (by decide)
        (by norm_num) (by norm_num) rounds σ pos hr

set_option maxRecDepth 40000 in
/-- C8 witness: the case theorem applied at `n = 0, 2, 6, 5, 9` with
`rounds = 40` and the concrete stream `entropy0`. -/
theorem c8_is_probably_prime_cases_witness :
    (ChaumPedersen.is_probably_prime 0 40 ChaumPedersen.entropy0 0).1 = false ∧
    (ChaumPedersen.is_probably_prime 2 40 ChaumPedersen.entropy0 0).1 = true ∧
    (ChaumPedersen.is_probably_prime 6 40 ChaumPedersen.entropy0 0).1 = false ∧
    (ChaumPedersen.is_probably_prime 5 40 ChaumPedersen.entropy0 0).1 = true ∧
    (ChaumPedersen.is_probably_prime 9 40 ChaumPedersen.entropy0 0).1 = false :=
  ⟨c8_is_probably_prime_cases.1 0 40 _ 0 (by decide),
   (c8_is_probably_prime_cases.2.1 40 ChaumPedersen.entropy0 0).1,
   c8_is_probably_prime_cases.2.2.1 6 40 _ 0 (by decide) (by decide),
   c8_is_probably_prime_cases.2.2.2.1 5 (by decide) 40 _ 0,
   c8_is_probably_prime_cases.2.2.2.2 9 (by decide) 40 _ 0 (by decide)⟩
